import Mathlib

/-!
Verification of the oes_backend exam-attempt core: the attempt state machine
(examSubmission.service.js, examAttempt.model.js), the hard-end-time
calculator (examTime.util.js), the scoring engine (examScore.service.js and
the answers-based engine exercised by scoreCalculator.test.js), the score
worker (scoreCalculationQueue.service.js) and the auto-submit sweep
(autoSubmitExamAttempts.cron.js).

Timestamps are modelled as integers (milliseconds since epoch, the value of
Date.getTime()).  Marks, scores and numerical answers are modelled as
rationals: the JS code manipulates plain numbers and none of the verified
properties depends on binary floating-point rounding.  Nullable columns are
modelled with Option.
-/

namespace OES

/-- Attempt status ENUM from examAttempt.model.js
("IN_PROGRESS", "SUBMITTED", "AUTO_SUBMITTED"). -/
inductive AttemptStatus where
  | inProgress
  | submitted
  | autoSubmitted
deriving DecidableEq, Repr

/-- The submitType argument of submitAttempt; the status ENUM of the model
admits only the two terminal values besides IN_PROGRESS, and all callers pass
"SUBMITTED" or "AUTO_SUBMITTED". -/
inductive SubmitKind where
  | submitted
  | autoSubmitted
deriving DecidableEq, Repr

/-- The status value written by submitAttempt for a given submitType. -/
def SubmitKind.toStatus : SubmitKind → AttemptStatus
  | .submitted => AttemptStatus.submitted
  | .autoSubmitted => AttemptStatus.autoSubmitted

/-- ExamAttempt row (examAttempt.model.js): startedAt is non-null,
submittedAt and score are nullable. -/
structure ExamAttempt where
  startedAt : ℤ
  submittedAt : Option ℤ
  status : AttemptStatus
  score : Option ℚ
deriving DecidableEq, Repr

/-- Exam fields consumed by getHardEndTime (exam.model.js). -/
structure Exam where
  endTime : ℤ
  durationMinutes : ℤ
deriving DecidableEq, Repr

/-- examTime.util.js getHardEndTime: the minimum of the exam window end and
startedAt plus the duration converted to milliseconds. -/
def getHardEndTime (exam : Exam) (attempt : ExamAttempt) : ℤ :=
  min exam.endTime (attempt.startedAt + exam.durationMinutes * 60 * 1000)

/-- Result shape of submitAttempt (examSubmission.service.js): the attempt
and the alreadySubmitted flag (the job field is always null there). -/
structure SubmitResult where
  alreadySubmitted : Bool
deriving DecidableEq, Repr

/-- examSubmission.service.js submitAttempt (lines 47-63): inside the
transaction, after reloading the locked row, if the status is no longer
IN_PROGRESS it returns alreadySubmitted=true without touching the row;
otherwise it sets status to the submit type and submittedAt to now. -/
def submitAttempt (attempt : ExamAttempt) (submitType : SubmitKind) (now : ℤ) :
    ExamAttempt × SubmitResult :=
  if attempt.status ≠ AttemptStatus.inProgress then
    (attempt, ⟨true⟩)
  else
    ({ attempt with status := submitType.toStatus, submittedAt := some now },
     ⟨false⟩)

/-- Question type ENUM (question.model.js). -/
inductive QuestionType where
  | singleCorrect
  | multipleCorrect
  | numerical
deriving DecidableEq, Repr

/-- Option row as read by the scoring code: id and the correctness flag. -/
structure QOption where
  id : ℕ
  isCorrect : Bool
deriving DecidableEq, Repr

/-- NumericalAnswer row: the target value and the tolerance. -/
structure NumericalAnswer where
  value : ℚ
  tolerance : ℚ
deriving DecidableEq, Repr

/-- Question row (question.model.js) with the included options and numerical
answer, as loaded by the scoring code. -/
structure Question where
  id : ℕ
  questionType : QuestionType
  marks : ℚ
  negativeMarks : ℚ
  options : List QOption
  numericalAnswer : Option NumericalAnswer
deriving DecidableEq, Repr

/-- ExamQuestion row joined with its question (examScore.service.js step 4);
marksForEachQuestion is the per-exam marks the transactional engine uses. -/
structure ExamQuestion where
  question : Question
  marksForEachQuestion : ℚ
deriving DecidableEq, Repr

/-- StudentAnswer row: selectedOptionIds is a JSON array (the code turns a
null column into [] with "|| []", folded into the List here), numericalAnswer
and marksObtained are nullable. -/
structure StudentAnswer where
  questionId : ℕ
  selectedOptionIds : List ℕ
  numericalAnswer : Option ℚ
  marksObtained : Option ℚ
deriving DecidableEq, Repr

/-- The ids of the options flagged correct, in option order
(examScore.service.js lines 119-121). -/
def correctOptionIds (q : Question) : List ℕ :=
  (q.options.filter (fun o => o.isCorrect)).map (fun o => o.id)

/-- Step 6 of examScore.service.js calculateExamScore, before the clamp on
line 159: the raw per-question mark for one exam question, given the answer
map lookup (none when the question was never answered). -/
def rawMarks (eq : ExamQuestion) (studentAnswer : Option StudentAnswer) : ℚ :=
  match studentAnswer with
  | none => 0
  | some sa =>
    match eq.question.questionType with
    | QuestionType.singleCorrect =>
      if sa.selectedOptionIds = [] then 0
      else
        match eq.question.options.find? (fun o => o.isCorrect) with
        | some correctOption =>
          if sa.selectedOptionIds.head? = some correctOption.id then
            eq.marksForEachQuestion
          else -eq.question.negativeMarks
        | none => -eq.question.negativeMarks
    | QuestionType.multipleCorrect =>
      if sa.selectedOptionIds = [] then 0
      else
        if sa.selectedOptionIds.length = (correctOptionIds eq.question).length
            ∧ ∀ i ∈ sa.selectedOptionIds, i ∈ correctOptionIds eq.question then
          eq.marksForEachQuestion
        else -eq.question.negativeMarks
    | QuestionType.numerical =>
      match eq.question.numericalAnswer, sa.numericalAnswer with
      | some num, some ans =>
        if |ans - num.value| ≤ num.tolerance then eq.marksForEachQuestion
        else -eq.question.negativeMarks
      | _, _ => 0

/-- Line 159 of examScore.service.js: marksObtained = Math.max(0,
marksObtained), applied to every question before persisting and summing. -/
def clampedMarks (eq : ExamQuestion) (studentAnswer : Option StudentAnswer) : ℚ :=
  max 0 (rawMarks eq studentAnswer)

/-- The answerMap lookup: the map is built from the loaded answer rows keyed
by questionId (a later duplicate key would overwrite an earlier one, hence
the lookup returns the last matching row; (attempt, question) is unique in
the data model, so at most one row matches). -/
def answerFor (answers : List StudentAnswer) (qid : ℕ) : Option StudentAnswer :=
  answers.reverse.find? (fun a => a.questionId == qid)

/-- The running totalScore of the evaluation loop: the sum over all exam
questions of the clamped per-question marks. -/
def totalScore (examQuestions : List ExamQuestion) (answers : List StudentAnswer) : ℚ :=
  (examQuestions.map (fun eq => clampedMarks eq (answerFor answers eq.question.id))).sum

/-- The save of studentAnswer.marksObtained inside the loop; the row mutated
is the map entry for that question id. -/
def setMarks (answers : List StudentAnswer) (qid : ℕ) (m : ℚ) : List StudentAnswer :=
  answers.map (fun a =>
    if a.questionId = qid then { a with marksObtained := some m } else a)

/-- One iteration of the evaluation loop, restricted to its effect on the
answer rows: when the question has a matching answer, that answer's
marksObtained is set to the clamped mark.  The loop reads only
selectedOptionIds / numericalAnswer / question data, never marksObtained, so
every written value is computed from the originally loaded rows. -/
def applyMarksStep (answers : List StudentAnswer) (acc : List StudentAnswer)
    (eq : ExamQuestion) : List StudentAnswer :=
  match answerFor answers eq.question.id with
  | none => acc
  | some _ => setMarks acc eq.question.id (clampedMarks eq (answerFor answers eq.question.id))

/-- The cumulative per-question writes of the evaluation loop. -/
def applyMarks (examQuestions : List ExamQuestion) (answers : List StudentAnswer) :
    List StudentAnswer :=
  examQuestions.foldl (applyMarksStep answers) answers

/-- The database rows read and written by one run of the transactional
calculateExamScore(examId, userId): the (unique) attempt row for that pair,
the exam questions with their joined question data, and the attempt's
student answers. -/
structure ScoreState where
  attempt : Option ExamAttempt
  examQuestions : List ExamQuestion
  studentAnswers : List StudentAnswer
deriving DecidableEq, Repr

/-- The result object of calculateExamScore, restricted to the fields the
verified properties speak about. -/
inductive CalcResult where
  | notFound
  | notSubmitted
  | noQuestions
  | ok (alreadyCalculated : Bool) (score : ℚ)
deriving DecidableEq, Repr

/-- examScore.service.js calculateExamScore: validation, the idempotency
short-circuit on a non-null score (rollback, hence no writes), then the
evaluation loop writing marksObtained per answered question and finally the
total onto the attempt. -/
def calculateExamScore (s : ScoreState) : ScoreState × CalcResult :=
  match s.attempt with
  | none => (s, CalcResult.notFound)
  | some attempt =>
    if attempt.status = AttemptStatus.inProgress then
      (s, CalcResult.notSubmitted)
    else
      match attempt.score with
      | some sc => (s, CalcResult.ok true sc)
      | none =>
        if s.examQuestions = [] then (s, CalcResult.noQuestions)
        else
          ({ attempt := some
               { attempt with score := some (totalScore s.examQuestions s.studentAnswers) },
             examQuestions := s.examQuestions,
             studentAnswers := applyMarks s.examQuestions s.studentAnswers },
           CalcResult.ok false (totalScore s.examQuestions s.studentAnswers))

/-- StudentAnswer row joined with its Question: the input shape of the
answers-based engine, the calculateExamScore(answers, transaction) form
whose behaviour scoreCalculator.test.js pins down and which the score worker
invokes with exactly this shape. -/
structure JoinedAnswer where
  question : Question
  selectedOptionId : Option ℕ
  selectedOptionIds : List ℕ
  numericalAnswer : Option ℚ
  marksObtained : Option ℚ
deriving DecidableEq, Repr

/-- One iteration of the answers-based engine: the mark for one answer row,
using question.marks and question.negativeMarks, with no clamping.  The
three sequential ifs of the source are exclusive because questionType is a
single enum value. -/
def scoreAnswer (ans : JoinedAnswer) : ℚ :=
  match ans.question.questionType with
  | QuestionType.singleCorrect =>
    match ans.question.options.find? (fun o => o.isCorrect) with
    | some correctOption =>
      if some correctOption.id = ans.selectedOptionId then ans.question.marks
      else -ans.question.negativeMarks
    | none => -ans.question.negativeMarks
  | QuestionType.multipleCorrect =>
    if (ans.selectedOptionIds.toFinset.card = (correctOptionIds ans.question).toFinset.card
        ∧ ∀ i ∈ ans.selectedOptionIds.toFinset, i ∈ (correctOptionIds ans.question).toFinset) then
      ans.question.marks
    else 0
  | QuestionType.numerical =>
    match ans.question.numericalAnswer, ans.numericalAnswer with
    | some num, some a =>
      if |a - num.value| ≤ num.tolerance then ans.question.marks
      else -ans.question.negativeMarks
    | _, _ => 0

/-- The answers-based calculateExamScore(answers): writes marksObtained on
every row and returns the accumulated total. -/
def calculateExamScoreAnswers (answers : List JoinedAnswer) : List JoinedAnswer × ℚ :=
  (answers.map (fun a => { a with marksObtained := some (scoreAnswer a) }),
   (answers.map scoreAnswer).sum)

/-- The database rows touched by one score-calculation job
(scoreCalculationQueue.service.js): the attempt row fetched by attemptId and
its answer rows joined with their questions. -/
structure WorkerState where
  attempt : Option ExamAttempt
  answers : List JoinedAnswer
deriving DecidableEq, Repr

/-- The value a score job resolves to (a missing attempt throws, aborting
the transaction with no writes). -/
inductive WorkerResult where
  | notFound
  | ok (alreadyCalculated : Bool) (score : ℚ)
deriving DecidableEq, Repr

/-- The worker body of scoreCalculationQueue.service.js (lines 38-105): lock
the attempt; throw if missing; if score is already non-null return it with
alreadyCalculated=true and perform no write; otherwise run the answers-based
engine, persisting each marksObtained and the total score. -/
def scoreWorkerStep (s : WorkerState) : WorkerState × WorkerResult :=
  match s.attempt with
  | none => (s, WorkerResult.notFound)
  | some attempt =>
    match attempt.score with
    | some sc => (s, WorkerResult.ok true sc)
    | none =>
      ({ attempt := some
           { attempt with score := some (calculateExamScoreAnswers s.answers).2 },
         answers := (calculateExamScoreAnswers s.answers).1 },
       WorkerResult.ok false (calculateExamScoreAnswers s.answers).2)

/-- One state-changing operation on an attempt row, as implemented by the
submission service, the auto-submit cron body and the score writers. -/
inductive AttemptOp where
  | submit (submitType : SubmitKind) (now : ℤ)
  | autoSweep (exam : Exam) (now : ℤ)
  | scoreJob (total : ℚ)
deriving DecidableEq, Repr

/-- The effect of one operation on the attempt row.  submit is
submitAttempt; autoSweep is the cron body for one attempt (the WHERE
status=IN_PROGRESS filter of the fetch plus the now > hardEndTime check,
then the AUTO_SUBMITTED update); scoreJob is the score write, performed only
while score is still null, touching neither status nor submittedAt. -/
def stepAttempt (op : AttemptOp) (a : ExamAttempt) : ExamAttempt :=
  match op with
  | AttemptOp.submit submitType now => (submitAttempt a submitType now).1
  | AttemptOp.autoSweep exam now =>
    if a.status = AttemptStatus.inProgress ∧ getHardEndTime exam a < now then
      { a with status := AttemptStatus.autoSubmitted, submittedAt := some now }
    else a
  | AttemptOp.scoreJob total =>
    match a.score with
    | none => { a with score := some total }
    | some _ => a

/-- A fresh attempt row (examAttempt.model.js defaults: status IN_PROGRESS,
submittedAt and score null). -/
def initialAttempt (startedAt : ℤ) : ExamAttempt :=
  { startedAt := startedAt, submittedAt := none,
    status := AttemptStatus.inProgress, score := none }

/-- Run a sequence of operations against an attempt row. -/
def runOps (ops : List AttemptOp) (a : ExamAttempt) : ExamAttempt :=
  ops.foldl (fun s op => stepAttempt op s) a

/-- One IN_PROGRESS attempt as seen by a sweep of the auto-submit cron:
whether now > hardEndTime held at sweep time (overdue), and whether the two
awaited calls of its loop body raise: attempt.save(), which has no
per-attempt handler around it, and calculateExamScore, which is wrapped in
its own try/catch. -/
structure SweepAttempt where
  status : AttemptStatus
  overdue : Bool
  saveFails : Bool
  scoreFails : Bool
deriving DecidableEq, Repr

/-- One sweep of autoSubmitExamAttempts.cron.js over the fetched attempts:
an overdue IN_PROGRESS attempt is set to AUTO_SUBMITTED and saved; an
exception from the save propagates to the sweep-level catch, so the
remaining attempts stay unprocessed, while an exception from the score
calculation is caught by the per-attempt try/catch and the loop continues
regardless of scoreFails. -/
def processSweep : List SweepAttempt → List SweepAttempt
  | [] => []
  | a :: rest =>
    if a.status = AttemptStatus.inProgress ∧ a.overdue then
      if a.saveFails then a :: rest
      else { a with status := AttemptStatus.autoSubmitted } :: processSweep rest
    else a :: processSweep rest

/-- The per-attempt effect of a failure-free sweep iteration. -/
def sweepEffect (a : SweepAttempt) : SweepAttempt :=
  if a.status = AttemptStatus.inProgress ∧ a.overdue then
    { a with status := AttemptStatus.autoSubmitted }
  else a

/-- The spec's SINGLE_CORRECT example: marks 4, negativeMarks 1, option 1
correct and option 2 wrong. -/
def qSingle : ExamQuestion :=
  { question :=
      { id := 1, questionType := QuestionType.singleCorrect, marks := 4,
        negativeMarks := 1,
        options := [{ id := 1, isCorrect := true }, { id := 2, isCorrect := false }],
        numericalAnswer := none },
    marksForEachQuestion := 4 }

/-- An answer to qSingle selecting the wrong option 2. -/
def ansWrong : StudentAnswer :=
  { questionId := 1, selectedOptionIds := [2], numericalAnswer := none,
    marksObtained := none }

/-- An answer to qSingle selecting the correct option 1. -/
def ansRight : StudentAnswer :=
  { questionId := 1, selectedOptionIds := [1], numericalAnswer := none,
    marksObtained := none }

/-- A submitted attempt not yet scored. -/
def attemptUnscored : ExamAttempt :=
  { startedAt := 0, submittedAt := some 10,
    status := AttemptStatus.submitted, score := none }

/-- A submitted, not yet scored attempt on an exam holding only qSingle,
with the wrong answer: the raw per-question marks sum to -1. -/
def stateNeg : ScoreState :=
  { attempt := some attemptUnscored,
    examQuestions := [qSingle],
    studentAnswers := [ansWrong] }

/-- The spec's NUMERICAL example: target 10.0, tolerance 0.5, marks 2,
negativeMarks 0.5. -/
def qNumerical : ExamQuestion :=
  { question :=
      { id := 2, questionType := QuestionType.numerical, marks := 2,
        negativeMarks := 1/2, options := [],
        numericalAnswer := some { value := 10, tolerance := 1/2 } },
    marksForEachQuestion := 2 }

/-- Numerical answer 10.4, inside the tolerance. -/
def ansNear : StudentAnswer :=
  { questionId := 2, selectedOptionIds := [], numericalAnswer := some (52/5),
    marksObtained := none }

/-- Numerical answer 12.0, outside the tolerance. -/
def ansFar : StudentAnswer :=
  { questionId := 2, selectedOptionIds := [], numericalAnswer := some 12,
    marksObtained := none }

/-- A numerical answer row with no value given. -/
def ansBlank : StudentAnswer :=
  { questionId := 2, selectedOptionIds := [], numericalAnswer := none,
    marksObtained := none }

/-- The spec's MULTIPLE_CORRECT example: marks 4, options A=1 (correct),
B=2, C=3 (correct). -/
def qMulti : ExamQuestion :=
  { question :=
      { id := 3, questionType := QuestionType.multipleCorrect, marks := 4,
        negativeMarks := 0,
        options := [{ id := 1, isCorrect := true }, { id := 2, isCorrect := false },
                    { id := 3, isCorrect := true }],
        numericalAnswer := none },
    marksForEachQuestion := 4 }

/-- An answer to qMulti selecting exactly {A, C}. -/
def ansAC : StudentAnswer :=
  { questionId := 3, selectedOptionIds := [1, 3], numericalAnswer := none,
    marksObtained := none }

/-- A terminal attempt row whose score is already stored as 7. -/
def attemptScored : ExamAttempt :=
  { startedAt := 0, submittedAt := some 1,
    status := AttemptStatus.submitted, score := some 7 }

/-- A worker state holding the already scored attempt. -/
def wsScored : WorkerState :=
  { attempt := some attemptScored, answers := [] }

/-- A service state holding the already scored attempt. -/
def ssScored : ScoreState :=
  { attempt := some attemptScored, examQuestions := [qSingle],
    studentAnswers := [ansWrong] }

/-- An overdue sweep attempt whose save raises. -/
def swBad : SweepAttempt :=
  { status := AttemptStatus.inProgress, overdue := true,
    saveFails := true, scoreFails := false }

/-- An overdue sweep attempt whose save succeeds but whose score
calculation raises. -/
def swGood : SweepAttempt :=
  { status := AttemptStatus.inProgress, overdue := true,
    saveFails := false, scoreFails := true }

end OES

namespace OES

/-- C1: for every attempt whose status is not IN_PROGRESS, submitAttempt
returns alreadySubmitted=true and performs no write: the returned attempt is
the input attempt, so status, submittedAt and score are all unchanged. -/
theorem submitAttempt_idempotent_when_terminal
    (attempt : ExamAttempt) (submitType : SubmitKind) (now : ℤ)
    (h : attempt.status ≠ AttemptStatus.inProgress) :
    submitAttempt attempt submitType now = (attempt, ⟨true⟩) := by
  simp [submitAttempt, h]

/-- Witness for C1: a concrete SUBMITTED attempt is returned unchanged with
alreadySubmitted=true. -/
theorem submitAttempt_idempotent_when_terminal_witness :
    submitAttempt
      { startedAt := 0, submittedAt := some 5,
        status := AttemptStatus.submitted, score := none }
      SubmitKind.autoSubmitted 9
      = ({ startedAt := 0, submittedAt := some 5,
           status := AttemptStatus.submitted, score := none }, ⟨true⟩) :=
  submitAttempt_idempotent_when_terminal _ _ _ (by decide)

/-- C7: getHardEndTime is exactly min(exam.endTime, startedAt +
durationMinutes in ms), hence bounded by both arguments; and on the spec
example (window 09:00-10:00 encoded from a midnight origin in ms, duration
90 min, start 09:10) it yields the exam end 10:00. -/
theorem getHardEndTime_min (exam : Exam) (attempt : ExamAttempt) :
    getHardEndTime exam attempt
        = min exam.endTime (attempt.startedAt + exam.durationMinutes * 60 * 1000)
      ∧ getHardEndTime exam attempt ≤ exam.endTime
      ∧ getHardEndTime exam attempt
          ≤ attempt.startedAt + exam.durationMinutes * 60 * 1000
      ∧ getHardEndTime
          { endTime := 36000000, durationMinutes := 90 }
          { startedAt := 33000000, submittedAt := none,
            status := AttemptStatus.inProgress, score := none }
          = 36000000 := by
  refine ⟨rfl, min_le_left _ _, min_le_right _ _, by decide⟩

/-- A row of setMarks is an input row, possibly with marksObtained set to
the written value. -/
lemma mem_setMarks {l : List StudentAnswer} {qid : ℕ} {m : ℚ} {a : StudentAnswer}
    (h : a ∈ setMarks l qid m) :
    (∃ b ∈ l, a = b) ∨ a.marksObtained = some m := by
  simp only [setMarks, List.mem_map] at h
  obtain ⟨b, hb, rfl⟩ := h
  by_cases hq : b.questionId = qid
  · right
    simp [hq]
  · left
    exact ⟨b, hb, by simp [hq]⟩

/-- Every row left by the evaluation loop either keeps the marksObtained of
one of the loaded rows or holds a freshly written, clamped (hence
nonnegative) mark. -/
lemma applyMarks_marks (qs : List ExamQuestion) (answers : List StudentAnswer) :
    ∀ a ∈ applyMarks qs answers,
      (∃ b ∈ answers, a.marksObtained = b.marksObtained) ∨
      (∃ m : ℚ, a.marksObtained = some m ∧ 0 ≤ m) := by
  have main : ∀ (l : List ExamQuestion) (acc : List StudentAnswer),
      (∀ a ∈ acc, (∃ b ∈ answers, a.marksObtained = b.marksObtained) ∨
        (∃ m : ℚ, a.marksObtained = some m ∧ 0 ≤ m)) →
      ∀ a ∈ l.foldl (applyMarksStep answers) acc,
        (∃ b ∈ answers, a.marksObtained = b.marksObtained) ∨
        (∃ m : ℚ, a.marksObtained = some m ∧ 0 ≤ m) := by
    intro l
    induction l with
    | nil =>
      intro acc h
      simpa using h
    | cons q l ih =>
      intro acc h
      simp only [List.foldl_cons]
      apply ih
      intro a ha
      unfold applyMarksStep at ha
      cases hf : answerFor answers q.question.id with
      | none =>
        rw [hf] at ha
        exact h a ha
      | some sa =>
        rw [hf] at ha
        rcases mem_setMarks ha with ⟨b, hb, rfl⟩ | hm
        · exact h _ hb
        · right
          exact ⟨_, hm, le_max_left _ _⟩
  exact main qs answers (fun a ha => Or.inl ⟨a, ha, rfl⟩)

/-- The totalScore of the evaluation loop sums clamped marks, so it is
nonnegative. -/
lemma totalScore_nonneg (qs : List ExamQuestion) (answers : List StudentAnswer) :
    0 ≤ totalScore qs answers := by
  apply List.sum_nonneg
  intro x hx
  simp only [List.mem_map] at hx
  obtain ⟨q, _, rfl⟩ := hx
  exact le_max_left _ _

/-- C2: the score-job worker performs no writes for an attempt whose score
is already non-null and returns the stored score; running the worker body
twice in sequence leaves the same rows (same final score, same per-question
marksObtained) as running it once; and the transactional scoring service has
the same short-circuit (returning the stored score for every submitted,
already scored attempt with no writes) and the same run-twice-equals-
run-once behaviour on its state. -/
theorem scoreJob_idempotent (s : WorkerState) (t : ScoreState) :
    (∀ attempt sc, s.attempt = some attempt → attempt.score = some sc →
        scoreWorkerStep s = (s, WorkerResult.ok true sc)) ∧
    (scoreWorkerStep (scoreWorkerStep s).1).1 = (scoreWorkerStep s).1 ∧
    (∀ attempt sc, t.attempt = some attempt → attempt.score = some sc →
        attempt.status ≠ AttemptStatus.inProgress →
        calculateExamScore t = (t, CalcResult.ok true sc)) ∧
    (calculateExamScore (calculateExamScore t).1).1 = (calculateExamScore t).1 := by
  refine ⟨?_, ?_, ?_, ?_⟩
  · intro attempt sc h1 h2
    simp [scoreWorkerStep, h1, h2]
  · cases ha : s.attempt with
    | none => simp [scoreWorkerStep, ha]
    | some attempt =>
      cases hsc : attempt.score with
      | some sc => simp [scoreWorkerStep, ha, hsc]
      | none => simp [scoreWorkerStep, ha, hsc]
  · intro attempt sc h1 h2 h3
    simp [calculateExamScore, h1, h2, h3]
  · cases ha : t.attempt with
    | none => simp [calculateExamScore, ha]
    | some attempt =>
      by_cases hst : attempt.status = AttemptStatus.inProgress
      · simp [calculateExamScore, ha, hst]
      · cases hsc : attempt.score with
        | some sc => simp [calculateExamScore, ha, hst, hsc]
        | none =>
          by_cases hq : t.examQuestions = []
          · simp [calculateExamScore, ha, hst, hsc, hq]
          · simp [calculateExamScore, ha, hst, hsc, hq]

/-- Witness for C2: a worker state and a service state whose attempt has
stored score 7 are returned unchanged with the stored score. -/
theorem scoreJob_idempotent_witness :
    scoreWorkerStep wsScored = (wsScored, WorkerResult.ok true 7) ∧
    calculateExamScore ssScored = (ssScored, CalcResult.ok true 7) :=
  ⟨(scoreJob_idempotent wsScored ssScored).1 attemptScored 7 rfl rfl,
   (scoreJob_idempotent wsScored ssScored).2.2.1 attemptScored 7 rfl rfl (by decide)⟩

/-- C10: the transactional scoring service clamps every per-question mark to
max(0, raw mark); every marksObtained it persists is nonnegative (any other
row keeps the marksObtained it was loaded with), and every freshly computed
total it returns and stores on the attempt is nonnegative. -/
theorem calculateExamScore_clamps_to_nonneg (s : ScoreState) :
    (∀ eq sa, clampedMarks eq sa = max 0 (rawMarks eq sa)) ∧
    (∀ a ∈ ((calculateExamScore s).1).studentAnswers,
        (∃ b ∈ s.studentAnswers, a.marksObtained = b.marksObtained) ∨
        (∃ m : ℚ, a.marksObtained = some m ∧ 0 ≤ m)) ∧
    (∀ sc : ℚ, (calculateExamScore s).2 = CalcResult.ok false sc →
        0 ≤ sc ∧ ((calculateExamScore s).1).attempt
            = s.attempt.map (fun attempt => { attempt with score := some sc })) := by
  refine ⟨fun _ _ => rfl, ?_, ?_⟩
  · cases ha : s.attempt with
    | none =>
      simp [calculateExamScore, ha]
      exact fun a ha => Or.inl ⟨a, ha, rfl⟩
    | some attempt =>
      by_cases hst : attempt.status = AttemptStatus.inProgress
      · simp only [calculateExamScore, ha, hst, if_pos rfl]
        exact fun a ha => Or.inl ⟨a, ha, rfl⟩
      · cases hsc : attempt.score with
        | some sc =>
          simp only [calculateExamScore, ha, if_neg hst, hsc]
          exact fun a ha => Or.inl ⟨a, ha, rfl⟩
        | none =>
          by_cases hq : s.examQuestions = []
          · simp only [calculateExamScore, ha, if_neg hst, hsc, if_pos hq]
            exact fun a ha => Or.inl ⟨a, ha, rfl⟩
          · simp only [calculateExamScore, ha, if_neg hst, hsc, if_neg hq]
            exact applyMarks_marks s.examQuestions s.studentAnswers
  · intro sc hsc
    cases ha : s.attempt with
    | none => simp [calculateExamScore, ha] at hsc
    | some attempt =>
      by_cases hst : attempt.status = AttemptStatus.inProgress
      · simp [calculateExamScore, ha, hst] at hsc
      · cases hscore : attempt.score with
        | some sc0 => simp [calculateExamScore, ha, hst, hscore] at hsc
        | none =>
          by_cases hq : s.examQuestions = []
          · simp [calculateExamScore, ha, hst, hscore, hq] at hsc
          · simp only [calculateExamScore, ha, if_neg hst, hscore, if_neg hq] at hsc ⊢
            obtain ⟨-, rfl⟩ := CalcResult.ok.inj hsc
            exact ⟨totalScore_nonneg _ _, by simp⟩

/-- Witness for C10: on the concrete single-question state the freshly
computed score 0 is nonnegative and stored on the attempt. -/
theorem calculateExamScore_clamps_to_nonneg_witness :
    0 ≤ (0 : ℚ) ∧ ((calculateExamScore stateNeg).1).attempt
        = stateNeg.attempt.map (fun attempt => { attempt with score := some (0 : ℚ) }) :=
  (calculateExamScore_clamps_to_nonneg stateNeg).2.2 0 (by
    simp [calculateExamScore, stateNeg, attemptUnscored, totalScore, clampedMarks, answerFor]
    norm_num [rawMarks, qSingle, ansWrong])

/-- C3 evaluated on the spec's own example (SINGLE_CORRECT, marks=4,
negativeMarks=1): the engine persists +4 for the correct single selection
and 0 for no selection, but for the single wrong selection the raw mark -1
is clamped by line 159 and the persisted mark is 0, not the -1 the claim
(and the repo test scoreCalculator.test.js) prescribe. -/
theorem singleCorrect_wrong_selection_clamped :
    clampedMarks qSingle (some ansRight) = 4 ∧
    rawMarks qSingle (some ansWrong) = -1 ∧
    clampedMarks qSingle (some ansWrong) = 0 ∧
    clampedMarks qSingle none = 0 := by
  refine ⟨by decide, by decide, by decide, by decide⟩

/-- C4 evaluated on the spec's own example (NUMERICAL, target=10.0,
tolerance=0.5, marks=2, negativeMarks=0.5): answer 10.4 is persisted as +2
and a missing answer as 0, but for answer 12.0 the raw mark -0.5 is clamped
by line 159 and the persisted mark is 0, not the -0.5 the claim (and the
repo test scoreCalculator.test.js) prescribe. -/
theorem numerical_out_of_tolerance_clamped :
    clampedMarks qNumerical (some ansNear) = 2 ∧
    rawMarks qNumerical (some ansFar) = -(1/2) ∧
    clampedMarks qNumerical (some ansFar) = 0 ∧
    clampedMarks qNumerical (some ansBlank) = 0 := by
  refine ⟨?_, ?_, ?_, ?_⟩ <;>
    norm_num [clampedMarks, rawMarks, qNumerical, ansNear, ansFar, ansBlank, abs_le]

/-- C6 evaluated at the failing input: on an exam whose raw per-question
marks sum to -1 (one SINGLE_CORRECT question, marks 4, negativeMarks 1,
wrong option selected), the engine stores total 0, because line 159 clamps
every per-question mark before summing; the negative stored total the claim
describes can never occur. -/
theorem negative_total_never_stored :
    rawMarks qSingle (some ansWrong) = -1 ∧
    (calculateExamScore stateNeg).2 = CalcResult.ok false 0 ∧
    ((calculateExamScore stateNeg).1).attempt
      = some { attemptUnscored with score := some 0 } := by
  refine ⟨by decide, ?_, ?_⟩
  · simp [calculateExamScore, stateNeg, attemptUnscored, totalScore, clampedMarks, answerFor]
    norm_num [rawMarks, qSingle, ansWrong]
  · simp [calculateExamScore, stateNeg, attemptUnscored, totalScore, clampedMarks, answerFor,
      applyMarks, applyMarksStep]
    norm_num [rawMarks, qSingle, ansWrong]

/-- The exact-match test of the evaluation loop (length equality plus
inclusion of every selected id) coincides with unordered-set equality on
duplicate-free lists. -/
lemma exact_match_iff_toFinset_eq {l₁ l₂ : List ℕ} (h₁ : l₁.Nodup) (h₂ : l₂.Nodup) :
    (l₁.length = l₂.length ∧ ∀ i ∈ l₁, i ∈ l₂) ↔ l₁.toFinset = l₂.toFinset := by
  constructor
  · rintro ⟨hlen, hsub⟩
    apply Finset.eq_of_subset_of_card_le
    · intro x hx
      rw [List.mem_toFinset] at hx ⊢
      exact hsub x hx
    · rw [List.toFinset_card_of_nodup h₁, List.toFinset_card_of_nodup h₂]
      exact le_of_eq hlen.symm
  · intro h
    constructor
    · rw [← List.toFinset_card_of_nodup h₁, ← List.toFinset_card_of_nodup h₂, h]
    · intro i hi
      rw [← List.mem_toFinset, h, List.mem_toFinset] at hi
      exact hi

/-- C5: for a MULTIPLE_CORRECT question with duplicate-free selected and
option ids (the data model stores sets and option ids are primary keys), at
least one correct option and nonnegative marks/negativeMarks, the engine
persists marks exactly when the selected set equals the correct set as
unordered sets, persists 0 for every mismatch and for no selection, and the
persisted mark is never negative. -/
theorem multipleCorrect_exact_set_match
    (eq : ExamQuestion) (sa : StudentAnswer)
    (hty : eq.question.questionType = QuestionType.multipleCorrect)
    (hm : 0 ≤ eq.marksForEachQuestion)
    (hn : 0 ≤ eq.question.negativeMarks)
    (hsel : sa.selectedOptionIds.Nodup)
    (hcor : (correctOptionIds eq.question).Nodup)
    (hne : correctOptionIds eq.question ≠ []) :
    clampedMarks eq (some sa)
        = (if sa.selectedOptionIds.toFinset = (correctOptionIds eq.question).toFinset
           then eq.marksForEachQuestion else 0)
      ∧ 0 ≤ clampedMarks eq (some sa) := by
  refine ⟨?_, le_max_left _ _⟩
  simp only [clampedMarks, rawMarks, hty]
  by_cases hempty : sa.selectedOptionIds = []
  · have hfin : ¬ sa.selectedOptionIds.toFinset = (correctOptionIds eq.question).toFinset := by
      rw [hempty, List.toFinset_nil]
      intro hcontra
      exact hne ((List.toFinset_eq_empty_iff _).mp hcontra.symm)
    rw [if_pos hempty, if_neg hfin]
    exact max_self 0
  · rw [if_neg hempty]
    by_cases hmatch : sa.selectedOptionIds.toFinset = (correctOptionIds eq.question).toFinset
    · rw [if_pos ((exact_match_iff_toFinset_eq hsel hcor).mpr hmatch), if_pos hmatch]
      exact max_eq_right hm
    · rw [if_neg (fun hc => hmatch ((exact_match_iff_toFinset_eq hsel hcor).mp hc)),
        if_neg hmatch]
      exact max_eq_left (neg_nonpos.mpr hn)

/-- Witness for C5: the spec example, correct set {1, 3} with selection
[1, 3], evaluates through the theorem at a concrete input. -/
theorem multipleCorrect_exact_set_match_witness :
    clampedMarks qMulti (some ansAC)
        = (if ansAC.selectedOptionIds.toFinset = (correctOptionIds qMulti.question).toFinset
           then qMulti.marksForEachQuestion else 0)
      ∧ 0 ≤ clampedMarks qMulti (some ansAC) :=
  multipleCorrect_exact_set_match qMulti ansAC (by decide) (by decide) (by decide)
    (by decide) (by decide) (by decide)

/-- Every operation preserves: submittedAt is non-null iff the status is
not IN_PROGRESS. -/
lemma stepAttempt_inv (op : AttemptOp) (a : ExamAttempt)
    (h : a.submittedAt ≠ none ↔ a.status ≠ AttemptStatus.inProgress) :
    (stepAttempt op a).submittedAt ≠ none ↔
      (stepAttempt op a).status ≠ AttemptStatus.inProgress := by
  cases op with
  | submit submitType now =>
    by_cases hs : a.status = AttemptStatus.inProgress
    · cases submitType <;> simp [stepAttempt, submitAttempt, hs, SubmitKind.toStatus]
    · simpa [stepAttempt, submitAttempt, hs] using h
  | autoSweep exam now =>
    by_cases hc : a.status = AttemptStatus.inProgress ∧ getHardEndTime exam a < now
    · simp [stepAttempt, hc]
    · simpa [stepAttempt, hc] using h
  | scoreJob total =>
    cases hsc : a.score with
    | none => simpa [stepAttempt, hsc] using h
    | some sc => simpa [stepAttempt, hsc] using h

/-- The invariant carries over every operation sequence. -/
lemma runOps_inv (ops : List AttemptOp) (a : ExamAttempt)
    (h : a.submittedAt ≠ none ↔ a.status ≠ AttemptStatus.inProgress) :
    (runOps ops a).submittedAt ≠ none ↔
      (runOps ops a).status ≠ AttemptStatus.inProgress := by
  induction ops generalizing a with
  | nil => simpa [runOps] using h
  | cons op ops ih =>
    simp only [runOps, List.foldl_cons]
    exact ih (stepAttempt op a) (stepAttempt_inv op a h)

/-- C8: a terminal status never changes under any of the operations (in
particular the state never moves between SUBMITTED and AUTO_SUBMITTED), any
status change starts at IN_PROGRESS and ends in one of the two terminal
states, and over every operation sequence from a fresh attempt, submittedAt
is non-null exactly when the status is not IN_PROGRESS. -/
theorem attempt_state_machine
    (op : AttemptOp) (a : ExamAttempt) (ops : List AttemptOp) (startedAt : ℤ) :
    (a.status ≠ AttemptStatus.inProgress → (stepAttempt op a).status = a.status) ∧
    ((stepAttempt op a).status ≠ a.status →
       a.status = AttemptStatus.inProgress ∧
       ((stepAttempt op a).status = AttemptStatus.submitted ∨
        (stepAttempt op a).status = AttemptStatus.autoSubmitted)) ∧
    ((runOps ops (initialAttempt startedAt)).submittedAt ≠ none ↔
       (runOps ops (initialAttempt startedAt)).status ≠ AttemptStatus.inProgress) := by
  refine ⟨?_, ?_, runOps_inv ops _ (by simp [initialAttempt])⟩
  · intro hterm
    cases op with
    | submit submitType now => simp [stepAttempt, submitAttempt, hterm]
    | autoSweep exam now =>
      have hc : ¬ (a.status = AttemptStatus.inProgress ∧ getHardEndTime exam a < now) :=
        fun hcc => hterm hcc.1
      simp [stepAttempt, hc]
    | scoreJob total => cases hsc : a.score <;> simp [stepAttempt, hsc]
  · intro hchange
    cases op with
    | submit submitType now =>
      by_cases hs : a.status = AttemptStatus.inProgress
      · refine ⟨hs, ?_⟩
        cases submitType <;> simp [stepAttempt, submitAttempt, hs, SubmitKind.toStatus]
      · exact absurd (by simp [stepAttempt, submitAttempt, hs]) hchange
    | autoSweep exam now =>
      by_cases hc : a.status = AttemptStatus.inProgress ∧ getHardEndTime exam a < now
      · exact ⟨hc.1, Or.inr (by simp [stepAttempt, hc])⟩
      · exact absurd (by simp [stepAttempt, hc]) hchange
    | scoreJob total =>
      refine absurd ?_ hchange
      cases hsc : a.score <;> simp [stepAttempt, hsc]

/-- Witness for C8: a score job on an already scored terminal attempt leaves
the status unchanged, and the empty operation sequence from a fresh attempt
satisfies the submittedAt-iff-terminal invariant. -/
theorem attempt_state_machine_witness :
    (stepAttempt (AttemptOp.scoreJob 3) attemptScored).status = attemptScored.status ∧
    ((runOps [] (initialAttempt 0)).submittedAt ≠ none ↔
       (runOps [] (initialAttempt 0)).status ≠ AttemptStatus.inProgress) :=
  ⟨(attempt_state_machine (AttemptOp.scoreJob 3) attemptScored [] 0).1 (by decide),
   (attempt_state_machine (AttemptOp.scoreJob 3) attemptScored [] 0).2.2⟩

/-- C9 as stated fails on the code: in a sweep of two overdue attempts
where the first attempt's save raises, the sweep aborts at the sweep-level
catch and the second overdue attempt stays IN_PROGRESS, unprocessed — the
per-attempt try/catch wraps only the score calculation, not the status
save. -/
theorem sweep_aborts_on_save_failure :
    processSweep [swBad, swGood] = [swBad, swGood] ∧
    ¬ (∀ a ∈ processSweep [swBad, swGood],
        a.overdue = true → ¬ a.status = AttemptStatus.inProgress) := by
  exact ⟨by decide, by decide⟩

/-- C9 amended: when no save raises, the sweep processes every attempt in
the list independently — every overdue IN_PROGRESS attempt becomes
AUTO_SUBMITTED even when score calculations raise, those exceptions being
caught per attempt. -/
theorem sweep_isolates_score_failures (l : List SweepAttempt)
    (h : ∀ a ∈ l, a.saveFails = false) :
    processSweep l = l.map sweepEffect := by
  induction l with
  | nil => rfl
  | cons a rest ih =>
    have ha : a.saveFails = false := h a (List.mem_cons_self a rest)
    have hrest := ih (fun b hb => h b (List.mem_cons_of_mem a hb))
    by_cases hc : a.status = AttemptStatus.inProgress ∧ a.overdue = true
    · simp [processSweep, hc, ha, hrest, sweepEffect]
    · simp [processSweep, hc, hrest, sweepEffect]

/-- Witness for C9 amended: a one-element sweep whose score calculation
raises still auto-submits that overdue attempt. -/
theorem sweep_isolates_score_failures_witness :
    processSweep [swGood]
      = [{ swGood with status := AttemptStatus.autoSubmitted }] :=
  (sweep_isolates_score_failures [swGood] (by decide)).trans (by decide)

end OES
